import Mathlib

/-!
A shallow embedding of the encryption-key lifecycle coordinator
(`KeyManagerService`), the async mutex (`AsyncMutex`), and the transactional
query executor (`executeSql` / `bulkProcess`) of the easy-database-connector
repository, together with theorems settling the frozen claims about them.

Driver/database interaction is modelled by an oracle `db : Nat → DriverResp`
consumed at an explicit call counter: each `request.query` / `request.batch`
round trip reads the next response.  Every statement sent to the database is
recorded in an output trace.
-/

namespace EasyDb

/-- Response of the driver to one `query`/`batch` round trip: either a
result set (modelled by its row count / COUNT value) or a thrown request
error carrying the driver error `number` (if any) and a message. -/
inductive DriverResp where
  | ok (rows : Nat)
  | err (number : Option Nat) (msg : String)
deriving DecidableEq, Repr

/-- The SQL statements the key manager sends to the database, by call site. -/
inductive Stmt where
  | probeMasterKey      -- checkEncryptionKeys: SELECT COUNT(*) ... '##MS_DatabaseMasterKey##'
  | probeSymKey         -- checkEncryptionKeys: SELECT COUNT(*) ... symmetricKeyName
  | probeCert           -- checkEncryptionKeys: SELECT COUNT(*) FROM sys.certificates
  | queryMasterKeyExists  -- manageKey open: SELECT 1 FROM sys.symmetric_keys WHERE name = '##MS_DatabaseMasterKey##'
  | openMasterKeyBatch    -- manageKey open: IF NOT EXISTS ... OPEN MASTER KEY ...
  | querySymKeyExists     -- manageKey open: SELECT 1 FROM sys.symmetric_keys WHERE name = symmetricKeyName
  | openSymKeyBatch       -- manageKey open: IF NOT EXISTS ... OPEN SYMMETRIC KEY ...
  | closeSymKeyBatch      -- manageKey close: IF EXISTS ... CLOSE SYMMETRIC KEY ...
  | closeMasterKeyBatch   -- manageKey close: IF EXISTS ... CLOSE MASTER KEY
deriving DecidableEq, Repr

/-- An OPEN statement in the sense of the spec ("OPEN …KEY"). -/
def Stmt.isOpenStmt : Stmt → Bool
  | .openMasterKeyBatch => true
  | .openSymKeyBatch => true
  | _ => false

/-- An existence probe of `checkEncryptionKeys` (reads system views only). -/
def Stmt.isProbe : Stmt → Bool
  | .probeMasterKey => true
  | .probeSymKey => true
  | .probeCert => true
  | _ => false

/-- The all-successful driver oracle: every round trip returns one row. -/
def dbAllOk : Nat → DriverResp := fun _ => .ok 1

/-- A driver oracle whose first call fails with the "already open" error
number 15466 and whose later calls succeed. -/
def dbFirst15466 : Nat → DriverResp := fun k =>
  if k = 0 then .err (some 15466) "anahtar zaten açık" else .ok 1

/-- The configuration fields `manageKey`/`checkEncryptionKeys` read. -/
structure DbConfig where
  symmetricKeyName : Option String
  certificateName : Option String
deriving DecidableEq, Repr

/-- JavaScript truthiness of an optional string (undefined and `''` falsy). -/
def strTruthy : Option String → Bool
  | none => false
  | some s => !(s == "")

/-- The `keyConfig` argument of `manageKey`: `aes?: boolean, masterkey?: boolean`
(absent and `false` are distinguished by `keyConfig.masterkey !== false`). -/
structure KeyConfig where
  aes : Option Bool
  masterkey : Option Bool
deriving DecidableEq, Repr

/-- JS truthiness of `keyConfig.aes || keyConfig.masterkey`. -/
def KeyConfig.wantsKeys (kc : KeyConfig) : Bool :=
  kc.aes == some true || kc.masterkey == some true

/-- Per-context key state kept in `connectionKeyStates`. -/
structure ConnState where
  openKeys : List String
  masterKeyOpen : Bool
  lastUsed : Nat
deriving DecidableEq, Repr

/-- Model of `Set.add` (idempotent). -/
def setAdd (l : List String) (s : String) : List String :=
  if s ∈ l then l else l ++ [s]

/-- Model of `Map.get` on the association-list model of `connectionKeyStates`. -/
def mapGet : List (String × ConnState) → String → Option ConnState
  | [], _ => none
  | p :: ps, k => if p.1 == k then some p.2 else mapGet ps k

/-- Model of `Map.set` (replace the entry for the key, or append a new one). -/
def mapSet : List (String × ConnState) → String → ConnState → List (String × ConnState)
  | [], k, v => [(k, v)]
  | p :: ps, k, v => if p.1 == k then (k, v) :: ps else p :: mapSet ps k v

/-- Model of `Map.delete`. -/
def mapDelete (m : List (String × ConnState)) (k : String) :
    List (String × ConnState) :=
  m.filter (fun p => !(p.1 == k))

/-- The mutable fields of the `KeyManagerService` singleton. -/
structure KMState where
  connectionKeyStates : List (String × ConnState)
  closed : Bool
  keysChecked : Bool
  keysAvailable : Bool
deriving DecidableEq, Repr

/-- The state map holds an entry for `k` that records no key open at all
(an "empty placeholder"). -/
def entryEmptyPlaceholder (m : List (String × ConnState)) (k : String) : Bool :=
  match mapGet m k with
  | none => false
  | some cs => cs.openKeys.isEmpty && !cs.masterKeyOpen

/-- The state map records symmetric key `sk` open for context `k` while the
context's master key is not recorded open. -/
def symOpenWithoutMaster (m : List (String × ConnState)) (k : String)
    (sk : String) : Bool :=
  match mapGet m k with
  | none => false
  | some cs => cs.openKeys.contains sk && !cs.masterKeyOpen

/-- Model of `checkEncryptionKeys(pool)`: probes master key, configured symmetric key
and configured certificate in that order, short-circuiting to `false` on the
first missing artifact; any thrown error is caught and also yields `false`;
the boolean outcome is cached in `keysChecked`/`keysAvailable`.  Returns
(result, new state, next call counter, statements issued). -/
def checkEncryptionKeys (cfg : DbConfig) (db : Nat → DriverResp) (n : Nat)
    (st : KMState) : Bool × KMState × Nat × List Stmt :=
  if st.keysChecked then
    (st.keysAvailable, st, n, [])
  else
    let neg : KMState := { st with keysChecked := true, keysAvailable := false }
    let pos : KMState := { st with keysChecked := true, keysAvailable := true }
    match db n with
    | .err _ _ => (false, neg, n + 1, [.probeMasterKey])
    | .ok cnt =>
      if cnt = 0 then (false, neg, n + 1, [.probeMasterKey])
      else
        -- symmetric key probe, when configured
        if strTruthy cfg.symmetricKeyName then
          match db (n + 1) with
          | .err _ _ => (false, neg, n + 2, [.probeMasterKey, .probeSymKey])
          | .ok cnt2 =>
            if cnt2 = 0 then (false, neg, n + 2, [.probeMasterKey, .probeSymKey])
            else
              if strTruthy cfg.certificateName then
                match db (n + 2) with
                | .err _ _ =>
                  (false, neg, n + 3, [.probeMasterKey, .probeSymKey, .probeCert])
                | .ok cnt3 =>
                  if cnt3 = 0 then
                    (false, neg, n + 3, [.probeMasterKey, .probeSymKey, .probeCert])
                  else
                    (true, pos, n + 3, [.probeMasterKey, .probeSymKey, .probeCert])
              else (true, pos, n + 2, [.probeMasterKey, .probeSymKey])
        else
          if strTruthy cfg.certificateName then
            match db (n + 1) with
            | .err _ _ => (false, neg, n + 2, [.probeMasterKey, .probeCert])
            | .ok cnt3 =>
              if cnt3 = 0 then (false, neg, n + 2, [.probeMasterKey, .probeCert])
              else (true, pos, n + 2, [.probeMasterKey, .probeCert])
          else (true, pos, n + 1, [.probeMasterKey])

/-- The master-key section of `manageKey`'s open path (run when
`keyConfig.masterkey` is truthy and the context's master key is not recorded
open): check the master key exists, then issue the idempotent OPEN MASTER KEY
batch; a driver error numbered 15466 is treated as "already open", every
other failure (including the missing-key throw) is wrapped and rethrown.
Returns (outcome, connection state as mutated so far, counter, trace). -/
def masterKeySection (db : Nat → DriverResp) (n : Nat) (cs : ConnState) :
    Except String Unit × ConnState × Nat × List Stmt :=
  match db n with
  | .err num msg =>
    if num = some 15466 then
      (.ok (), { cs with masterKeyOpen := true }, n + 1, [.queryMasterKeyExists])
    else
      (.error ("Master key işlemi başarısız: " ++ msg), cs, n + 1,
        [.queryMasterKeyExists])
  | .ok rows =>
    if rows = 0 then
      (.error "Master key işlemi başarısız: Veritabanında master key bulunamadı",
        cs, n + 1, [.queryMasterKeyExists])
    else
      match db (n + 1) with
      | .ok _ =>
        (.ok (), { cs with masterKeyOpen := true }, n + 2,
          [.queryMasterKeyExists, .openMasterKeyBatch])
      | .err num msg =>
        if num = some 15466 then
          (.ok (), { cs with masterKeyOpen := true }, n + 2,
            [.queryMasterKeyExists, .openMasterKeyBatch])
        else
          (.error ("Master key işlemi başarısız: " ++ msg), cs, n + 2,
            [.queryMasterKeyExists, .openMasterKeyBatch])

/-- The symmetric-key section of `manageKey`'s open path (run when
`keyConfig.aes` is truthy, a symmetric key name `sk` is configured, and `sk`
is not recorded open for this context): first, if the master key is not
recorded open and the caller did not explicitly pass `masterkey: false`,
issue the implicit OPEN MASTER KEY batch; then check the symmetric key
exists and issue the idempotent OPEN SYMMETRIC KEY batch.  The single catch
treats a 15466 error from ANY of these steps as "already open" and records
`sk` in `openKeys`; other errors are wrapped and rethrown. -/
def aesSection (mkOpt : Option Bool) (sk : String) (db : Nat → DriverResp)
    (n : Nat) (cs : ConnState) : Except String Unit × ConnState × Nat × List Stmt :=
  -- step 1: implicit master-key open
  let step1 : Except (Option Nat × String) Unit × ConnState × Nat × List Stmt :=
    if !cs.masterKeyOpen && !(mkOpt == some false) then
      match db n with
      | .ok _ => (.ok (), { cs with masterKeyOpen := true }, n + 1, [.openMasterKeyBatch])
      | .err num msg => (.error (num, msg), cs, n + 1, [.openMasterKeyBatch])
    else (.ok (), cs, n, [])
  match step1 with
  | (.error (num, msg), cs1, n1, tr1) =>
    -- the shared catch
    if num = some 15466 then
      (.ok (), { cs1 with openKeys := setAdd cs1.openKeys sk }, n1, tr1)
    else
      (.error ("Simetrik anahtar işlemi başarısız: " ++ msg), cs1, n1, tr1)
  | (.ok (), cs1, n1, tr1) =>
    -- step 2: symmetric key existence check
    match db n1 with
    | .err num msg =>
      if num = some 15466 then
        (.ok (), { cs1 with openKeys := setAdd cs1.openKeys sk }, n1 + 1,
          tr1 ++ [.querySymKeyExists])
      else
        (.error ("Simetrik anahtar işlemi başarısız: " ++ msg), cs1, n1 + 1,
          tr1 ++ [.querySymKeyExists])
    | .ok rows =>
      if rows = 0 then
        (.error ("Simetrik anahtar işlemi başarısız: '" ++ sk ++
            "' simetrik anahtarı veritabanında bulunamadı"), cs1, n1 + 1,
          tr1 ++ [.querySymKeyExists])
      else
        -- step 3: OPEN SYMMETRIC KEY batch
        match db (n1 + 1) with
        | .ok _ =>
          (.ok (), { cs1 with openKeys := setAdd cs1.openKeys sk }, n1 + 2,
            tr1 ++ [.querySymKeyExists, .openSymKeyBatch])
        | .err num msg =>
          if num = some 15466 then
            (.ok (), { cs1 with openKeys := setAdd cs1.openKeys sk }, n1 + 2,
              tr1 ++ [.querySymKeyExists, .openSymKeyBatch])
          else
            (.error ("Simetrik anahtar işlemi başarısız: " ++ msg), cs1, n1 + 2,
              tr1 ++ [.querySymKeyExists, .openSymKeyBatch])

/-- The close path of `manageKey` (run when neither `aes` nor `masterkey` is
truthy): close the symmetric key if recorded open, then close the master key
if recorded open; failures are logged and swallowed, so this never throws. -/
def closeSection (cfg : DbConfig) (db : Nat → DriverResp) (n : Nat)
    (cs : ConnState) : ConnState × Nat × List Stmt :=
  let (cs1, n1, tr1) :=
    match cfg.symmetricKeyName with
    | some sk =>
      if !(sk == "") && sk ∈ cs.openKeys then
        match db n with
        | .ok _ => ({ cs with openKeys := cs.openKeys.erase sk }, n + 1, [Stmt.closeSymKeyBatch])
        | .err _ _ => (cs, n + 1, [Stmt.closeSymKeyBatch])
      else (cs, n, [])
    | none => (cs, n, [])
  if cs1.masterKeyOpen then
    match db n1 with
    | .ok _ => ({ cs1 with masterKeyOpen := false }, n1 + 1, tr1 ++ [Stmt.closeMasterKeyBatch])
    | .err _ _ => (cs1, n1 + 1, tr1 ++ [Stmt.closeMasterKeyBatch])
  else (cs1, n1, tr1)

/-- The open path of `manageKey` (run when `masterkey` or `aes` is truthy):
the master-key section when `masterkey` is requested and not recorded open,
then the symmetric-key section when `aes` is requested, a symmetric key name
is configured and not recorded open for the context.  The context's map
entry always receives the connection state as mutated so far, also when a
section failed. -/
def openPath (cfg : DbConfig) (kc : KeyConfig) (db : Nat → DriverResp)
    (n1 : Nat) (connId : String) (cs0 : ConnState) (st1 : KMState)
    (m1 : List (String × ConnState)) :
    Except String String × KMState × Nat × List Stmt :=
  let (r1, cs1, n2, tr2) :=
    if kc.masterkey == some true && !cs0.masterKeyOpen then
      masterKeySection db n1 cs0
    else (.ok (), cs0, n1, ([] : List Stmt))
  match r1 with
  | .error e =>
    (.error e, { st1 with connectionKeyStates := mapSet m1 connId cs1 }, n2, tr2)
  | .ok () =>
    let (r2, cs2, n3, tr3) :=
      match cfg.symmetricKeyName with
      | some sk =>
        if kc.aes == some true && !(sk == "") && sk ∉ cs1.openKeys then
          aesSection kc.masterkey sk db n2 cs1
        else (.ok (), cs1, n2, ([] : List Stmt))
      | none => (.ok (), cs1, n2, ([] : List Stmt))
    let st2 := { st1 with connectionKeyStates := mapSet m1 connId cs2 }
    match r2 with
    | .error e => (.error e, st2, n3, tr2 ++ tr3)
    | .ok () => (.ok connId, st2, n3, tr2 ++ tr3)

/-- Model of `KeyManagerService.manageKey(pool, keyConfig, transaction?, connectionId?)`.
`freshId` stands for the id `generateConnectionId` would produce; `now` for
`Date.now()`; `skipEncryption` for `process.env.DB_SKIP_ENCRYPTION === 'true'`.
Returns (result, new service state, next call counter, statements issued).
The single global mutex is acquired for the body and always released; in this
sequential model acquisition always succeeds. -/
def manageKey (cfg : DbConfig) (skipEncryption : Bool) (freshId : String)
    (now : Nat) (db : Nat → DriverResp) (n : Nat) (st : KMState)
    (kc : KeyConfig) (connectionId : Option String) :
    Except String String × KMState × Nat × List Stmt :=
  if st.closed then
    (.error "Anahtar yönetim servisi kapatıldı", st, n, [])
  else if skipEncryption && kc.wantsKeys then
    (.ok (connectionId.getD freshId), st, n, [])
  else
    -- availability probe, only when keysChecked is still false
    let (short, st1, n1, tr1) :=
      if !st.keysChecked && kc.wantsKeys then
        let (avail, st', n', tr) := checkEncryptionKeys cfg db n st
        (!avail, st', n', tr)
      else (false, st, n, ([] : List Stmt))
    if short then
      (.ok (connectionId.getD freshId), st1, n1, tr1)
    else
      let connId := connectionId.getD freshId
      let cs0 : ConnState :=
        match mapGet st1.connectionKeyStates connId with
        | some c => { c with lastUsed := now }
        | none => ⟨[], false, now⟩
      let m1 := mapSet st1.connectionKeyStates connId cs0
      if kc.wantsKeys then
        -- OPEN path
        let (r, st2, n2, tr2) := openPath cfg kc db n1 connId cs0 st1 m1
        (r, st2, n2, tr1 ++ tr2)
      else
        -- CLOSE path
        let (cs1, n2, tr2) := closeSection cfg db n1 cs0
        let m2 :=
          if cs1.openKeys.isEmpty && !cs1.masterKeyOpen then
            mapDelete m1 connId
          else
            mapSet m1 connId cs1
        (.ok connId, { st1 with connectionKeyStates := m2 }, n2, tr1 ++ tr2)

/-! ### The global `AsyncMutex`

The mutex is modelled as a transition system.  A waiter is identified by a
`Nat` (standing for the waiter object's identity); the state is the `locked`
flag and the `waitQueue` in arrival order.  Three kinds of events drive it:
an `acquire` call, an invocation of a `release` function, and the firing of
a waiter's timeout timer.  Each event's handler is transcribed from
`AsyncMutex.acquire`. -/

/-- Events of the mutex transition system. -/
inductive MutexEvent where
  | acquire (id : Nat) (timeoutMs : Nat)
  | release
  | timeoutFire (id : Nat) (timeoutMs : Nat)
deriving DecidableEq, Repr

/-- Observable outcome of one mutex event. -/
inductive MutexOutcome where
  | grantedNow (id : Nat)          -- acquire on an unlocked mutex returns at once
  | queued (id : Nat) (hasTimer : Bool)  -- acquire on a locked mutex enqueues
  | grantedFromQueue (id : Nat)    -- release resolves the queue head
  | unlocked                       -- release with an empty queue clears `locked`
  | rejected (id : Nat) (msg : String)   -- a timeout timer fires: reject
deriving DecidableEq, Repr

/-- State of the mutex. -/
structure MutexState where
  locked : Bool
  waitQueue : List Nat
deriving DecidableEq, Repr

/-- The timeout rejection message `Mutex ${timeoutMs}ms sonra zaman aşımına uğradı`. -/
def mutexTimeoutMessage (timeoutMs : Nat) : String :=
  "Mutex " ++ toString timeoutMs ++ "ms sonra zaman aşımına uğradı"

/-- One step of the mutex transition system, transcribed from
`AsyncMutex.acquire`: an acquire on an unlocked mutex takes the lock at
once; on a locked mutex the waiter is appended to `waitQueue`, with a timer
armed exactly when `timeoutMs > 0`.  A release hands the lock to the head of
the queue (clearing its timer), or unlocks when the queue is empty.  A
firing timer splices its waiter out of the queue and rejects it with the
timeout message. -/
def mutexStep (s : MutexState) (e : MutexEvent) : MutexState × MutexOutcome :=
  match e with
  | .acquire id timeoutMs =>
    if !s.locked then
      ({ s with locked := true }, .grantedNow id)
    else
      ({ s with waitQueue := s.waitQueue ++ [id] }, .queued id (decide (0 < timeoutMs)))
  | .release =>
    match s.waitQueue with
    | w :: rest => ({ s with waitQueue := rest }, .grantedFromQueue w)
    | [] => ({ s with locked := false }, .unlocked)
  | .timeoutFire id timeoutMs =>
    ({ s with waitQueue := s.waitQueue.erase id },
      .rejected id (mutexTimeoutMessage timeoutMs))

/-- Run a list of events from a state, collecting the outcomes in order. -/
def mutexRun (s : MutexState) : List MutexEvent → MutexState × List MutexOutcome
  | [] => (s, [])
  | e :: es =>
    let (s1, o) := mutexStep s e
    let (s2, os) := mutexRun s1 es
    (s2, o :: os)

/-- No event in `es` is an acquire by waiter `id`. -/
def noAcquireOf (id : Nat) (es : List MutexEvent) : Bool :=
  es.all (fun e =>
    match e with
    | .acquire j _ => !(j == id)
    | _ => true)

/-- Waiter `a` is queued strictly ahead of waiter `b`: the queue splits as
`l₁ ++ l₂` with `a` in the front part (which does not contain `b`) and `b`
occurring exactly once in the back part. -/
def AheadOf (a b : Nat) (q : List Nat) : Prop :=
  ∃ l₁ l₂, q = l₁ ++ l₂ ∧ a ∈ l₁ ∧ b ∉ l₁ ∧ l₂.count b = 1

/-! ### The transactional query executor -/

/-- The JavaScript values the executor distinguishes when binding
parameters (`null`/`undefined`, `Date`, `Buffer`, everything else). -/
inductive JsVal where
  | nullV
  | undefinedV
  | dateV (ms : Nat)
  | bufferV (bytes : List Nat)
  | otherV (repr : String)
deriving DecidableEq, Repr

/-- Driver parameter types, as chosen by the binding code. -/
inductive BindType where
  | nullBind      -- request.input(name, null)
  | dateTime      -- mssql.DateTime
  | varBinary     -- mssql.VarBinary
  | inferred      -- two-argument form: driver default inference
deriving DecidableEq, Repr

/-- The parameter-binding loop of `executeSql`'s plain path (lines 271-288):
parameter `i` is bound under the name `p&lt;i&gt;` with the transcribed type
dispatch. -/
def bindParam (idx : Nat) (v : JsVal) : String × BindType :=
  ("p" ++ toString idx,
    match v with
    | .nullV => .nullBind
    | .undefinedV => .nullBind
    | .dateV _ => .dateTime
    | .bufferV _ => .varBinary
    | .otherV _ => .inferred)

/-- All bindings produced for a parameter list, in order
(`input.parameters.forEach((param, idx) => ...)`). -/
def bindParams (ps : List JsVal) : List (String × BindType) :=
  ps.mapIdx (fun i v => bindParam i v)

/-- The driver type the spec's words assign to each value: "null/undefined →
null; Date → date/time type; binary buffer → variable-length binary type;
everything else → default inference."  (Spec-side definition, for the
refinement comparison with `bindParam`.) -/
def specParamType (v : JsVal) : BindType :=
  match v with
  | .nullV => .nullBind
  | .undefinedV => .nullBind
  | .dateV _ => .dateTime
  | .bufferV _ => .varBinary
  | .otherV _ => .inferred

/-- The `bulk` option of `executeSql`'s input (`columns` absent means JS
`undefined`, which is falsy; a present array — even empty — is truthy). -/
structure BulkOpt where
  columns : Option (List String)
  batchSize : Option Nat
deriving DecidableEq, Repr

/-- The `encryption` option: `open` triggers key management, `data` names the
columns needing encryption. -/
structure EncOptions where
  openCfg : Option KeyConfig
  data : List String
deriving DecidableEq, Repr

/-- The input record of `executeSql` (the `sql` text only matters to the
bulk-path table-name derivation, which no claim touches; `parameters` of the
plain path are modelled as `JsVal`s, absent as `[]`). -/
structure ExecInput where
  parameters : List JsVal
  bulk : Option BulkOpt
  encryption : Option EncOptions
  transaction : Bool
deriving DecidableEq, Repr

/-- Observable actions of one `executeSql` call, with key-manager statements
tagged by the phase (opening before the work vs the `finally` cleanup). -/
inductive ExecAction where
  | openKeyStmt (s : Stmt)
  | plainQuery (bindings : List (String × BindType))
  | bulkLoader
  | cleanupKeyStmt (s : Stmt)
deriving DecidableEq, Repr

/-- Model of `executeSql(pool, input)`, transcribed from the source: open keys when
`input.encryption?.open` is present (a failure here propagates and, since
`keyConnId` was never assigned, skips the cleanup); run the plain path when
`input.bulk` is absent (bind parameters positionally, then run the query —
the 60s-timeout race is one possible driver error); run the bulk loader when
`input.bulk?.columns` is present (the loader itself is modelled separately
as `bulkProcess`; here its outcome is the oracle `bulkOutcome`); otherwise
fall through to `return []`.  The `finally` block closes the call's keys
with `{aes: false, masterkey: false}` when `keyConnId` was captured, and any
failure of that cleanup is swallowed (logged at debug level), so the main
outcome is returned unchanged.  `qdata` is the oracle for the rows a
successful plain query returns. -/
def executeSql (cfg : DbConfig) (skipEncryption : Bool) (freshId : String)
    (now : Nat) (db : Nat → DriverResp) (qdata : Nat → List Nat)
    (bulkOutcome : Except String Unit) (n : Nat) (st : KMState)
    (input : ExecInput) :
    Except String (List Nat) × KMState × Nat × List ExecAction :=
  let (keyConnId, openR, st1, n1, tr1) :
      Option String × Except String Unit × KMState × Nat × List ExecAction :=
    match input.encryption with
    | some enc =>
      match enc.openCfg with
      | some kc =>
        match manageKey cfg skipEncryption freshId now db n st kc none with
        | (.ok id, st', n', tr) =>
          (some id, .ok (), st', n', tr.map ExecAction.openKeyStmt)
        | (.error e, st', n', tr) =>
          (none, .error e, st', n', tr.map ExecAction.openKeyStmt)
      | none => (none, .ok (), st, n, [])
    | none => (none, .ok (), st, n, [])
  match openR with
  | .error e => (.error e, st1, n1, tr1)
  | .ok () =>
    let (mainR, n2, tr2) : Except String (List Nat) × Nat × List ExecAction :=
      match input.bulk with
      | none =>
        let binds := bindParams input.parameters
        match db n1 with
        | .ok _ => (.ok (qdata n1), n1 + 1, [.plainQuery binds])
        | .err _ msg => (.error msg, n1 + 1, [.plainQuery binds])
      | some b =>
        match b.columns with
        | some _ =>
          match bulkOutcome with
          | .ok () => (.ok [], n1, [.bulkLoader])
          | .error e => (.error e, n1, [.bulkLoader])
        | none => (.ok [], n1, [])
    match keyConnId with
    | some id =>
      let (_, st2, n3, tr3) :=
        manageKey cfg skipEncryption freshId now db n2 st1
          ⟨some false, some false⟩ (some id)
      (mainR, st2, n3, tr1 ++ tr2 ++ tr3.map ExecAction.cleanupKeyStmt)
    | none => (mainR, st1, n2, tr1 ++ tr2)

/-- The trace records an execution of the operation itself: either the
plain-path query or the bulk loader. -/
def hasMainOpStmt (tr : List ExecAction) : Bool :=
  tr.any (fun a =>
    match a with
    | .plainQuery _ => true
    | .bulkLoader => true
    | _ => false)

/-! ### The bulk loader `bulkProcess`

Modelled at the granularity of the driver calls it makes.  Each possible
failure point is driven by a `BulkBehavior` oracle; the per-column
`bulkEncrypt` round trips (which share the opened key session) are
abstracted to one encrypt step per encrypted column, since the claims treat
an encryption failure atomically. -/

/-- A bulk-insert row: column name to value. -/
abbrev RowMap := List (String × JsVal)

/-- A column descriptor `(name, type, options?)`: the validation only looks
at whether the name trims to nonempty and the type is non-null. -/
structure ColumnSpec where
  name : String
  hasType : Bool
  isStringType : Bool
deriving DecidableEq, Repr

/-- Success/failure of each driver interaction inside one `bulkProcess` call. -/
structure BulkBehavior where
  beginOk : Bool
  manageKeyOk : Bool
  encryptFailCol : Option Nat
  bulkFailBatch : Option Nat
  commitOk : Bool
  rollbackOk : Bool
deriving DecidableEq, Repr

/-- Observable actions of one `bulkProcess` call. -/
inductive BPAction where
  | beginTx
  | manageKeyOpen
  | encryptCol (i : Nat)
  | bulkCopy (batch : Nat)
  | commitTx
  | rollbackTx
  | cleanupTx
deriving DecidableEq, Repr

/-- Column-by-column processing: encrypted columns go through `bulkEncrypt`
(one step per column here), others pass through unchanged. -/
def bpProcessCols (beh : BulkBehavior) (encSet : List String) :
    List (Nat × ColumnSpec) → Except String Unit × List BPAction
  | [] => (.ok (), [])
  | (i, c) :: rest =>
    if c.name ∈ encSet then
      if beh.encryptFailCol = some i then
        (.error ("\"" ++ c.name ++ "\" sütunu işlenirken hata"), [.encryptCol i])
      else
        let (r, as) := bpProcessCols beh encSet rest
        (r, .encryptCol i :: as)
    else bpProcessCols beh encSet rest

/-- The batched `request.bulk(table)` loop. -/
def bpBatches (beh : BulkBehavior) : List Nat → Except String Unit × List BPAction
  | [] => (.ok (), [])
  | k :: rest =>
    if beh.bulkFailBatch = some k then
      (.error "Parti için toplu ekleme başarısız", [.bulkCopy k])
    else
      let (r, as) := bpBatches beh rest
      (r, .bulkCopy k :: as)

/-- The `try` body of `bulkProcess`: begin the transaction when owned, open
keys once when `encryption.open` is set (`keyConnId` captured only on
success), validate columns, process columns, stream the batches, then — when
the transaction is owned — commit and release the key context.  Returns
(outcome, whether a key context was captured, actions). -/
def bpBody (beh : BulkBehavior) (dataLen : Nat) (columns : List ColumnSpec)
    (encOpen : Bool) (encData : List String) (batchSize : Nat)
    (needsTx : Bool) : Except String Unit × Bool × List BPAction :=
  if needsTx && !beh.beginOk then
    (.error "begin başarısız", false, [.beginTx])
  else
    let trB : List BPAction := if needsTx then [.beginTx] else []
    if encOpen && !beh.manageKeyOk then
      (.error "Anahtar işlemi başarısız", false, trB ++ [.manageKeyOpen])
    else
      let keyOpened := encOpen
      let trK : List BPAction := if encOpen then [.manageKeyOpen] else []
      -- `typeof name !== 'string' || !name.trim()` rejects names that are
      -- empty after trimming, i.e. made of whitespace only
      let valid := columns.filter
        (fun c => !(c.name.data.all Char.isWhitespace) && c.hasType)
      if valid.isEmpty then
        (.error "Toplu işlem için geçerli sütun tanımlanmamış", keyOpened, trB ++ trK)
      else
        let (rC, trC) := bpProcessCols beh encData valid.enum
        match rC with
        | .error e => (.error e, keyOpened, trB ++ trK ++ trC)
        | .ok () =>
          let numBatches := (dataLen + batchSize - 1) / batchSize
          let (rBat, trBat) := bpBatches beh (List.range numBatches)
          match rBat with
          | .error e => (.error e, keyOpened, trB ++ trK ++ trC ++ trBat)
          | .ok () =>
            if needsTx then
              if !beh.commitOk then
                (.error "commit başarısız", keyOpened,
                  trB ++ trK ++ trC ++ trBat ++ [.commitTx])
              else
                (.ok (), keyOpened,
                  trB ++ trK ++ trC ++ trBat ++ [.commitTx] ++
                    (if keyOpened then [BPAction.cleanupTx] else []))
            else (.ok (), keyOpened, trB ++ trK ++ trC ++ trBat)

/-- Model of `bulkProcess(pool, tableName, data, columns, encryption?, batchSize,
existingTransaction?)`: empty data returns at once; otherwise the body runs
and, on failure, the `catch` rolls back only a transaction this call owns
(then releases the key context, unless the rollback itself threw — the inner
`catch` swallows that and skips the cleanup) and always rethrows the
original error.  A caller-supplied transaction is never committed, rolled
back, or key-cleaned here. -/
def bulkProcess (beh : BulkBehavior) (data : List RowMap)
    (columns : List ColumnSpec) (encryption : Option EncOptions)
    (batchSize : Nat) (existingTransaction : Bool) :
    Except String Unit × List BPAction :=
  if data.isEmpty then (.ok (), [])
  else
    let needsTx := !existingTransaction
    let encOpen :=
      match encryption with
      | some enc => enc.openCfg.isSome
      | none => false
    let encData :=
      match encryption with
      | some enc => enc.data
      | none => []
    let (r, keyOpened, acts) :=
      bpBody beh data.length columns encOpen encData batchSize needsTx
    match r with
    | .ok () => (.ok (), acts)
    | .error e =>
      if needsTx then
        if beh.rollbackOk then
          (.error e, acts ++ [.rollbackTx] ++
            (if keyOpened then [BPAction.cleanupTx] else []))
        else
          (.error e, acts ++ [.rollbackTx])
      else (.error e, acts)

/-! ## Theorems -/

theorem mapGet_mapSet_self (m : List (String × ConnState)) (k : String)
    (v : ConnState) : mapGet (mapSet m k v) k = some v := by
  induction m with
  | nil => simp [mapSet, mapGet]
  | cons p ps ih =>
    by_cases h : p.1 == k
    · simp [mapSet, mapGet, h]
    · simp [mapSet, mapGet, h, ih]

theorem mapSet_mapSet (m : List (String × ConnState)) (k : String)
    (v v' : ConnState) : mapSet (mapSet m k v) k v' = mapSet m k v' := by
  induction m with
  | nil => simp [mapSet]
  | cons p ps ih =>
    by_cases h : p.1 == k
    · simp [mapSet, h]
    · simp [mapSet, h, ih]

theorem mapGet_mapDelete_self (m : List (String × ConnState)) (k : String) :
    mapGet (mapDelete m k) k = none := by
  induction m with
  | nil => simp [mapDelete, mapGet]
  | cons p ps ih =>
    by_cases h : p.1 == k
    · simpa [mapDelete, h] using ih
    · simpa [mapDelete, mapGet, h] using ih

theorem entryPlaceholder_core (m : List (String × ConnState)) (k : String)
    (c0 c1 : ConnState) :
    entryEmptyPlaceholder
      (if (c1.openKeys.isEmpty && !c1.masterKeyOpen) = true then
        mapDelete (mapSet m k c0) k
      else mapSet (mapSet m k c0) k c1) k = false := by
  by_cases h : (c1.openKeys.isEmpty && !c1.masterKeyOpen) = true
  · simp [h, entryEmptyPlaceholder, mapGet_mapDelete_self]
  · rw [if_neg h]
    unfold entryEmptyPlaceholder
    rw [mapGet_mapSet_self]
    simpa using h

/-- C10: on a first invocation of `checkEncryptionKeys` whose very
database probe throws (e.g. a connection failure), the function returns
`false`, caches `keysChecked = true` with `keysAvailable = false`, and does
not propagate the error: the only statement sent was the master-key probe. -/
theorem c10_probe_error_cached_negative
    (cfg : DbConfig) (db : Nat → DriverResp) (n : Nat) (st : KMState)
    (num : Option Nat) (msg : String)
    (hchk : st.keysChecked = false) (herr : db n = .err num msg) :
    checkEncryptionKeys cfg db n st =
      (false, { st with keysChecked := true, keysAvailable := false }, n + 1,
        [Stmt.probeMasterKey]) := by
  unfold checkEncryptionKeys
  simp [hchk, herr]

/-- Witness for C10 at a concrete failing probe. -/
theorem c10_probe_error_cached_negative_witness :
    checkEncryptionKeys ⟨some "SK", some "CERT"⟩
        (fun _ => .err none "bağlantı hatası") 0 ⟨[], false, false, false⟩ =
      (false, ⟨[], false, true, false⟩, 1, [Stmt.probeMasterKey]) :=
  c10_probe_error_cached_negative ⟨some "SK", some "CERT"⟩
    (fun _ => .err none "bağlantı hatası") 0 ⟨[], false, false, false⟩
    none "bağlantı hatası" rfl rfl

/-- C4 counterexample: a `manageKey({aes: true})` call on a fresh
context with no symmetric key configured terminates successfully, opens
nothing, and leaves an empty placeholder entry (`openKeys = ∅`,
`masterKeyOpen = false`) for its context id in the state map — refuting the
claim that such state is fully removed and never lingers. -/
theorem c4_counterexample :
    mapGet (manageKey ⟨none, none⟩ false "ctx" 0 dbAllOk 0
        ⟨[], false, true, true⟩ ⟨some true, none⟩ none).2.1.connectionKeyStates
      "ctx" = some ⟨[], false, 0⟩ := by decide

/-- C4 amended: entry removal is performed by the close path: for every
terminating `manageKey` call on a live service that requests neither `aes`
nor `masterkey`, the call's context id does not remain in the map as an
empty placeholder — its entry is deleted whenever no key is recorded open
for it afterwards.  (Open-path calls that fail or open nothing can leave an
empty placeholder, as the counterexample shows.) -/
theorem c4_close_path_removal
    (cfg : DbConfig) (skip : Bool) (freshId : String) (now : Nat)
    (db : Nat → DriverResp) (n : Nat) (st : KMState) (kc : KeyConfig)
    (cid : Option String)
    (hclosed : st.closed = false) (hw : kc.wantsKeys = false) :
    entryEmptyPlaceholder
      (manageKey cfg skip freshId now db n st kc cid).2.1.connectionKeyStates
      (cid.getD freshId) = false := by
  unfold manageKey
  simp only [hclosed, hw, Bool.and_false, Bool.false_eq_true, if_false]
  exact entryPlaceholder_core _ _ _ _

/-- Witness for the amended C4 at a concrete close call. -/
theorem c4_close_path_removal_witness :
    entryEmptyPlaceholder
      (manageKey ⟨some "SK", some "CERT"⟩ false "f" 0 dbAllOk 0
          ⟨[("ctx", ⟨["SK"], true, 0⟩)], false, true, true⟩
          ⟨some false, some false⟩ (some "ctx")).2.1.connectionKeyStates
      "ctx" = false :=
  c4_close_path_removal ⟨some "SK", some "CERT"⟩ false "f" 0 dbAllOk 0
    ⟨[("ctx", ⟨["SK"], true, 0⟩)], false, true, true⟩
    ⟨some false, some false⟩ (some "ctx") rfl rfl

theorem checkEncryptionKeys_frame (cfg : DbConfig) (db : Nat → DriverResp)
    (n : Nat) (st : KMState) :
    (checkEncryptionKeys cfg db n st).2.1.connectionKeyStates =
        st.connectionKeyStates ∧
    (checkEncryptionKeys cfg db n st).2.1.closed = st.closed ∧
    ((checkEncryptionKeys cfg db n st).2.2.2).all Stmt.isProbe = true := by
  unfold checkEncryptionKeys
  repeat' split
  all_goals simp [Stmt.isProbe]

theorem probes_not_open (l : List Stmt) (h : l.all Stmt.isProbe = true) :
    l.any Stmt.isOpenStmt = false := by
  rw [List.all_eq_true] at h
  rw [List.any_eq_false]
  intro s hs
  have hp := h s hs
  cases s <;> simp_all [Stmt.isProbe, Stmt.isOpenStmt]

/-- C1 counterexample: with a negative availability result already
cached (`keysChecked = true`, `keysAvailable = false`), a
`manageKey({aes: true})` call does NOT short-circuit: the guard only
consults the probe when `keysChecked` is still false, so the call proceeds
to the open path and issues OPEN statements (here the implicit
OPEN MASTER KEY batch and the OPEN SYMMETRIC KEY batch) — refuting the
claim that a cached negative result suppresses all key operations. -/
theorem c1_counterexample :
    (manageKey ⟨some "SK", some "CERT"⟩ false "ctx" 0 dbAllOk 0
        ⟨[], false, true, false⟩ ⟨some true, none⟩ none).1 = .ok "ctx" ∧
    ((manageKey ⟨some "SK", some "CERT"⟩ false "ctx" 0 dbAllOk 0
        ⟨[], false, true, false⟩ ⟨some true, none⟩ none).2.2.2).any
      Stmt.isOpenStmt = true := ⟨rfl, by decide⟩

/-- C1 amended: the negative-availability short circuit applies exactly
to the `manageKey` call that runs the probe itself: when `keysChecked` is
still false at entry and the in-call probe comes back negative, the call
returns a context id, issues no OPEN statement (only existence probes), and
leaves the connection-key-state map untouched.  (Once the negative result is
cached, later calls bypass the availability check, as the counterexample
shows.) -/
theorem c1_probe_negative_short_circuit
    (cfg : DbConfig) (skip : Bool) (freshId : String) (now : Nat)
    (db : Nat → DriverResp) (n : Nat) (st : KMState) (kc : KeyConfig)
    (cid : Option String)
    (hclosed : st.closed = false) (hchk : st.keysChecked = false)
    (hw : kc.wantsKeys = true)
    (hneg : (checkEncryptionKeys cfg db n st).1 = false) :
    (manageKey cfg skip freshId now db n st kc cid).1 =
        .ok (cid.getD freshId) ∧
    ((manageKey cfg skip freshId now db n st kc cid).2.2.2).any
        Stmt.isOpenStmt = false ∧
    (manageKey cfg skip freshId now db n st kc cid).2.1.connectionKeyStates =
        st.connectionKeyStates := by
  have hframe := checkEncryptionKeys_frame cfg db n st
  unfold manageKey
  by_cases hskip : skip
  · simp [hclosed, hw, hskip]
  · rcases hc : checkEncryptionKeys cfg db n st with ⟨avail, st', n', tr⟩
    rw [hc] at hframe hneg
    simp only at hneg hframe
    simp [hclosed, hw, hskip, hchk, hc, hneg, probes_not_open _ hframe.2.2,
      hframe.1]

/-- Witness for the amended C1: a first call whose in-call probe finds no
master key (COUNT 0) short-circuits with no OPEN statement and no state. -/
theorem c1_probe_negative_short_circuit_witness :
    (manageKey ⟨some "SK", some "CERT"⟩ false "ctx" 0 (fun _ => .ok 0) 0
        ⟨[], false, false, false⟩ ⟨some true, none⟩ none).1 = .ok "ctx" ∧
    ((manageKey ⟨some "SK", some "CERT"⟩ false "ctx" 0 (fun _ => .ok 0) 0
        ⟨[], false, false, false⟩ ⟨some true, none⟩ none).2.2.2).any
      Stmt.isOpenStmt = false ∧
    (manageKey ⟨some "SK", some "CERT"⟩ false "ctx" 0 (fun _ => .ok 0) 0
        ⟨[], false, false, false⟩ ⟨some true, none⟩
        none).2.1.connectionKeyStates = [] :=
  c1_probe_negative_short_circuit ⟨some "SK", some "CERT"⟩ false "ctx" 0
    (fun _ => .ok 0) 0 ⟨[], false, false, false⟩ ⟨some true, none⟩ none
    rfl rfl rfl (by decide)

theorem masterKeySection_shape (db : Nat → DriverResp) (n : Nat)
    (cs : ConnState) :
    (masterKeySection db n cs).2.1.openKeys = cs.openKeys ∧
    ((masterKeySection db n cs).1 = .ok () →
      (masterKeySection db n cs).2.1.masterKeyOpen = true) ∧
    (cs.masterKeyOpen = true →
      (masterKeySection db n cs).2.1.masterKeyOpen = true) := by
  unfold masterKeySection
  repeat' split
  all_goals simp_all

theorem aesSection_ordering (mkOpt : Option Bool) (sk : String)
    (db : Nat → DriverResp) (n : Nat) (cs : ConnState)
    (hmkopt : mkOpt ≠ some false) (hsk : sk ∉ cs.openKeys)
    (hdb : ∀ k num msg, db k = .err num msg → num ≠ some 15466) :
    sk ∈ (aesSection mkOpt sk db n cs).2.1.openKeys →
      (aesSection mkOpt sk db n cs).2.1.masterKeyOpen = true := by
  have hmkb : (mkOpt == some false) = false := by
    cases mkOpt with
    | none => rfl
    | some b => cases b <;> simp_all
  unfold aesSection
  cases hmko : cs.masterKeyOpen with
  | true =>
    simp only [hmko, Bool.not_true, Bool.false_and, Bool.false_eq_true,
      if_false]
    repeat' split
    all_goals simp_all [setAdd]
  | false =>
    simp only [hmko, Bool.not_false, hmkb, Bool.true_and, if_true]
    rcases hdb2 : db n with rows | ⟨num, msg⟩
    · simp only [hdb2]
      repeat' split
      all_goals simp_all [setAdd]
    · have h15 := hdb n num msg hdb2
      simp only [hdb2]
      rw [if_neg h15]
      exact fun h => absurd h hsk

theorem symOpen_mapSet (m : List (String × ConnState)) (k sk : String)
    (c : ConnState)
    (h : c.openKeys.contains sk = true → c.masterKeyOpen = true) :
    symOpenWithoutMaster (mapSet m k c) k sk = false := by
  unfold symOpenWithoutMaster
  rw [mapGet_mapSet_self]
  cases hcon : c.openKeys.contains sk with
  | false =>
    have hns : sk ∉ c.openKeys := by simpa using hcon
    simp [hns]
  | true => simp [hcon, h hcon]

theorem openPath_no_sym_without_master (cfg : DbConfig) (kc : KeyConfig)
    (db : Nat → DriverResp) (n1 : Nat) (connId : String) (cs0 : ConnState)
    (st1 : KMState) (m1 : List (String × ConnState)) (sk : String)
    (hsym : cfg.symmetricKeyName = some sk)
    (hmk : kc.masterkey ≠ some false)
    (hgood0 : cs0.openKeys.contains sk = true → cs0.masterKeyOpen = true)
    (hdb : ∀ j num msg, db j = .err num msg → num ≠ some 15466) :
    symOpenWithoutMaster
      (openPath cfg kc db n1 connId cs0 st1 m1).2.1.connectionKeyStates
      connId sk = false := by
  unfold openPath
  by_cases hcond : (kc.masterkey == some true && !cs0.masterKeyOpen) = true
  · rw [if_pos hcond]
    have hshape := masterKeySection_shape db n1 cs0
    rcases hms : masterKeySection db n1 cs0 with ⟨r1, cs1, n2, tr2⟩
    rw [hms] at hshape
    simp only at hshape
    have hgood1 : cs1.openKeys.contains sk = true → cs1.masterKeyOpen = true := by
      intro hc
      rw [hshape.1] at hc
      exact hshape.2.2 (hgood0 hc)
    cases r1 with
    | error e =>
      simpa using symOpen_mapSet m1 connId sk cs1 hgood1
    | ok u =>
      cases u
      have hmko1 : cs1.masterKeyOpen = true := hshape.2.1 rfl
      simp only [hsym]
      by_cases hg : (kc.aes == some true && !(sk == "") &&
          decide (sk ∉ cs1.openKeys)) = true
      · rw [if_pos hg]
        have hsk : sk ∉ cs1.openKeys := by
          have := (Bool.and_eq_true _ _).mp hg
          exact of_decide_eq_true this.2
        have hord := aesSection_ordering kc.masterkey sk db n2 cs1 hmk hsk hdb
        rcases has : aesSection kc.masterkey sk db n2 cs1 with ⟨r2, cs2, n3, tr3⟩
        rw [has] at hord
        simp only at hord
        have hgood2 : cs2.openKeys.contains sk = true →
            cs2.masterKeyOpen = true := by
          intro hc
          exact hord (by simpa using hc)
        cases r2 with
        | error e => simpa using symOpen_mapSet m1 connId sk cs2 hgood2
        | ok u => cases u; simpa using symOpen_mapSet m1 connId sk cs2 hgood2
      · rw [if_neg hg]
        simpa using symOpen_mapSet m1 connId sk cs1 (fun _ => hmko1)
  · rw [if_neg hcond]
    simp only [hsym]
    by_cases hg : (kc.aes == some true && !(sk == "") &&
        decide (sk ∉ cs0.openKeys)) = true
    · rw [if_pos hg]
      have hsk : sk ∉ cs0.openKeys := by
        have := (Bool.and_eq_true _ _).mp hg
        exact of_decide_eq_true this.2
      have hord := aesSection_ordering kc.masterkey sk db n1 cs0 hmk hsk hdb
      rcases has : aesSection kc.masterkey sk db n1 cs0 with ⟨r2, cs2, n3, tr3⟩
      rw [has] at hord
      simp only at hord
      have hgood2 : cs2.openKeys.contains sk = true →
          cs2.masterKeyOpen = true := by
        intro hc
        exact hord (by simpa using hc)
      cases r2 with
      | error e => simpa using symOpen_mapSet m1 connId sk cs2 hgood2
      | ok u => cases u; simpa using symOpen_mapSet m1 connId sk cs2 hgood2
    · rw [if_neg hg]
      simpa using symOpen_mapSet m1 connId sk cs0 hgood0

/-- C2 counterexample: a `manageKey({aes: true})` call (no explicit
`masterkey: false`) on a fresh context, where the implicit OPEN MASTER KEY
batch fails with driver error 15466: the shared catch records the symmetric
key as open while `masterKeyOpen` is still `false` — refuting the claim
that the symmetric key is never recorded open while `masterKeyOpen` is
false. -/
theorem c2_counterexample :
    symOpenWithoutMaster
      (manageKey ⟨some "SK", some "CERT"⟩ false "ctx" 0 dbFirst15466 0
          ⟨[], false, true, true⟩ ⟨some true, none⟩
          none).2.1.connectionKeyStates "ctx" "SK" = true := by decide

/-- C2 amended: for every `manageKey` call requesting `aes` without
explicitly passing `masterkey: false`, on a context that does not already
record the symmetric key open without its master key: unless some driver
call fails with the "already open" error number 15466 (in which case the
shared catch can record the symmetric key open while `masterKeyOpen` stays
false, as the counterexample shows), the call never leaves the context
recording the symmetric key open while `masterKeyOpen` is false — the
master key is opened (implicitly if need be) before the symmetric key is
recorded open. -/
theorem c2_ordering_amended
    (cfg : DbConfig) (skip : Bool) (freshId : String) (now : Nat)
    (db : Nat → DriverResp) (n : Nat) (st : KMState) (kc : KeyConfig)
    (cid : Option String) (sk : String)
    (hsym : cfg.symmetricKeyName = some sk)
    (haes : kc.aes = some true) (hmk : kc.masterkey ≠ some false)
    (hpre : symOpenWithoutMaster st.connectionKeyStates (cid.getD freshId) sk
      = false)
    (hdb : ∀ k num msg, db k = .err num msg → num ≠ some 15466) :
    symOpenWithoutMaster
      (manageKey cfg skip freshId now db n st kc cid).2.1.connectionKeyStates
      (cid.getD freshId) sk = false := by
  have hw : kc.wantsKeys = true := by
    simp [KeyConfig.wantsKeys, haes]
  have hgood0 : ∀ cs0 : ConnState,
      (cs0 = match mapGet st.connectionKeyStates (cid.getD freshId) with
        | some c => { c with lastUsed := now }
        | none => ⟨[], false, now⟩) →
      cs0.openKeys.contains sk = true → cs0.masterKeyOpen = true := by
    intro cs0 hcs0
    unfold symOpenWithoutMaster at hpre
    rcases hget : mapGet st.connectionKeyStates (cid.getD freshId) with _ | c
    · rw [hget] at hcs0
      subst hcs0
      intro h
      simp at h
    · rw [hget] at hcs0 hpre
      subst hcs0
      simp only at hpre
      intro h
      simp only [h, Bool.true_and, Bool.not_eq_true'] at hpre
      simpa using hpre
  unfold manageKey
  by_cases hcl : st.closed = true
  · simpa [hcl] using hpre
  · rw [Bool.not_eq_true] at hcl
    by_cases hskip : skip
    · simpa [hcl, hskip, hw] using hpre
    · by_cases hchk : st.keysChecked = true
      · simp only [hcl, hskip, hw, hchk, Bool.false_eq_true, if_false,
          Bool.not_true, Bool.false_and, Bool.and_true, if_true,
          Bool.true_and]
        exact openPath_no_sym_without_master cfg kc db n (cid.getD freshId)
          _ _ _ sk hsym hmk (hgood0 _ rfl) hdb
      · have hframe := checkEncryptionKeys_frame cfg db n st
        rcases hc : checkEncryptionKeys cfg db n st with ⟨avail, st', n', tr⟩
        rw [hc] at hframe
        simp only at hframe
        rw [Bool.not_eq_true] at hchk
        simp only [hcl, hskip, hw, hchk, Bool.false_eq_true, if_false,
          Bool.not_false, Bool.and_true, Bool.true_and, if_true, hc]
        cases avail with
        | false => simpa [hframe.1] using hpre
        | true =>
          simp only [Bool.not_true, Bool.false_eq_true, if_false,
            hframe.1]
          exact openPath_no_sym_without_master cfg kc db n' (cid.getD freshId)
            _ _ _ sk hsym hmk (hgood0 _ rfl) hdb

/-- Witness for the amended C2: a successful `manageKey({aes: true})` call
on a fresh context against a driver that never reports 15466. -/
theorem c2_ordering_amended_witness :
    symOpenWithoutMaster
      (manageKey ⟨some "SK", some "CERT"⟩ false "ctx" 0 dbAllOk 0
          ⟨[], false, true, true⟩ ⟨some true, none⟩
          none).2.1.connectionKeyStates "ctx" "SK" = false :=
  c2_ordering_amended ⟨some "SK", some "CERT"⟩ false "ctx" 0 dbAllOk 0
    ⟨[], false, true, true⟩ ⟨some true, none⟩ none "SK" rfl rfl
    (by decide) (by decide)
    (fun k num msg h => by simp [dbAllOk] at h)

theorem closeSection_closes_master (cfg : DbConfig) (db : Nat → DriverResp)
    (n : Nat) (cs : ConnState) (hmko : cs.masterKeyOpen = true) :
    Stmt.closeMasterKeyBatch ∈ (closeSection cfg db n cs).2.2 := by
  obtain ⟨okeys, mko, lu⟩ := cs
  simp only at hmko
  subst hmko
  unfold closeSection
  rcases hsym : cfg.symmetricKeyName with _ | sk
  · simp only [hsym]
    repeat' split
    all_goals simp_all
  · simp only [hsym]
    by_cases hg : (!(sk == "") && decide (sk ∈ okeys)) = true
    · rw [if_pos hg]
      repeat' split
      all_goals simp_all
    · rw [if_neg hg]
      repeat' split
      all_goals simp_all

theorem manageKey_close_closes_master (cfg : DbConfig) (skip : Bool)
    (freshId : String) (now : Nat) (db : Nat → DriverResp) (n : Nat)
    (st : KMState) (id : String) (cs : ConnState)
    (hclosed : st.closed = false)
    (hcs : mapGet st.connectionKeyStates id = some cs)
    (hmko : cs.masterKeyOpen = true) :
    Stmt.closeMasterKeyBatch ∈
      (manageKey cfg skip freshId now db n st ⟨some false, some false⟩
        (some id)).2.2.2 := by
  unfold manageKey
  simp [hclosed, hcs, KeyConfig.wantsKeys]
  exact closeSection_closes_master cfg db n _ hmko

/-- Every terminating close-path `manageKey` call on a live service returns a
context id (the close path never throws: close failures are swallowed). -/
theorem manageKey_close_no_throw (cfg : DbConfig) (skip : Bool)
    (freshId : String) (now : Nat) (db : Nat → DriverResp) (n : Nat)
    (st : KMState) (kc : KeyConfig) (cid : Option String)
    (hclosed : st.closed = false) (hw : kc.wantsKeys = false) :
    (manageKey cfg skip freshId now db n st kc cid).1 =
      .ok (cid.getD freshId) := by
  unfold manageKey
  simp [hclosed, hw]

/-- C3 counterexample: an `executeSql` call that opened keys (here
`{aes: true, masterkey: true}`) DOES close the master key in its
finally-equivalent cleanup: the close path of `manageKey` issues
`CLOSE MASTER KEY` whenever the context records the master key open,
refuting "never closes the master key". -/
theorem c3_counterexample :
    ExecAction.cleanupKeyStmt Stmt.closeMasterKeyBatch ∈
      (executeSql ⟨some "SK", some "CERT"⟩ false "ctx" 0 dbAllOk
          (fun _ => [1]) (.ok ()) 0 ⟨[], false, true, true⟩
          ⟨[], none, some ⟨some ⟨some true, some true⟩, []⟩,
            false⟩).2.2.2 := by decide

/-- C3 amended: for every `executeSql` call that opened keys (a key
context id was captured), the finally-equivalent cleanup issues a close call
with `{aes: false, masterkey: false}`; this close also issues
`CLOSE MASTER KEY` when the master key is recorded open for the call's
context (so the database-side master key does NOT remain open).  Any failure
in this cleanup is swallowed (logged at debug level only) and never
propagates: the call's outcome is exactly the main query's outcome,
whatever the cleanup's driver responses are. -/
theorem c3_cleanup_amended
    (cfg : DbConfig) (skip : Bool) (freshId : String) (now : Nat)
    (db : Nat → DriverResp) (qdata : Nat → List Nat)
    (bulkOutcome : Except String Unit) (n : Nat) (st : KMState)
    (params : List JsVal) (enc : EncOptions) (kc : KeyConfig) (tx : Bool)
    (id : String) (st' : KMState) (n' : Nat) (tr' : List Stmt)
    (cs : ConnState)
    (henc : enc.openCfg = some kc)
    (hopen : manageKey cfg skip freshId now db n st kc none =
      (.ok id, st', n', tr'))
    (hclosed' : st'.closed = false)
    (hcs : mapGet st'.connectionKeyStates id = some cs)
    (hmko : cs.masterKeyOpen = true) :
    ((executeSql cfg skip freshId now db qdata bulkOutcome n st
        ⟨params, none, some enc, tx⟩).1 =
      match db n' with
      | .ok _ => .ok (qdata n')
      | .err _ msg => .error msg) ∧
    ExecAction.cleanupKeyStmt Stmt.closeMasterKeyBatch ∈
      (executeSql cfg skip freshId now db qdata bulkOutcome n st
        ⟨params, none, some enc, tx⟩).2.2.2 := by
  unfold executeSql
  simp only [henc, hopen]
  have hmem := manageKey_close_closes_master cfg skip freshId now db (n' + 1)
    st' id cs hclosed' hcs hmko
  rcases hq : db n' with rows | ⟨num, msg⟩ <;>
    simp only [hq] <;>
      exact ⟨trivial, List.mem_append_right _ (List.mem_map_of_mem _ hmem)⟩

/-- Witness for the amended C3, at a concrete call that opens
`{aes, masterkey}`, runs a plain query and then cleans up. -/
theorem c3_cleanup_amended_witness :
    ((executeSql ⟨some "SK", some "CERT"⟩ false "ctx" 0 dbAllOk (fun _ => [1])
        (.ok ()) 0 ⟨[], false, true, true⟩
        ⟨[], none, some ⟨some ⟨some true, some true⟩, []⟩, false⟩).1 =
      .ok [1]) ∧
    ExecAction.cleanupKeyStmt Stmt.closeMasterKeyBatch ∈
      (executeSql ⟨some "SK", some "CERT"⟩ false "ctx" 0 dbAllOk (fun _ => [1])
        (.ok ()) 0 ⟨[], false, true, true⟩
        ⟨[], none, some ⟨some ⟨some true, some true⟩, []⟩, false⟩).2.2.2 :=
  c3_cleanup_amended ⟨some "SK", some "CERT"⟩ false "ctx" 0 dbAllOk
    (fun _ => [1]) (.ok ()) 0 ⟨[], false, true, true⟩ []
    ⟨some ⟨some true, some true⟩, []⟩ ⟨some true, some true⟩ false
    "ctx" ⟨[("ctx", ⟨["SK"], true, 0⟩)], false, true, true⟩ 4
    [.queryMasterKeyExists, .openMasterKeyBatch, .querySymKeyExists,
      .openSymKeyBatch] ⟨["SK"], true, 0⟩ rfl rfl rfl rfl rfl

/-- C9: an `executeSql` call whose input has a truthy `bulk` object but
no `bulk.columns` runs neither the plain query nor the bulk loader; if the
call resolves at all (the key-open phase did not reject), it resolves with
the empty array — a silent no-op rather than an error. -/
theorem c9_bulk_without_columns
    (cfg : DbConfig) (skip : Bool) (freshId : String) (now : Nat)
    (db : Nat → DriverResp) (qdata : Nat → List Nat)
    (bulkOutcome : Except String Unit) (n : Nat) (st : KMState)
    (params : List JsVal) (batch : Option Nat) (encOpt : Option EncOptions)
    (tx : Bool)
    (hok : ∀ e, (executeSql cfg skip freshId now db qdata bulkOutcome n st
      ⟨params, some ⟨none, batch⟩, encOpt, tx⟩).1 ≠ .error e) :
    (executeSql cfg skip freshId now db qdata bulkOutcome n st
        ⟨params, some ⟨none, batch⟩, encOpt, tx⟩).1 = .ok [] ∧
    hasMainOpStmt
      (executeSql cfg skip freshId now db qdata bulkOutcome n st
        ⟨params, some ⟨none, batch⟩, encOpt, tx⟩).2.2.2 = false := by
  unfold executeSql at hok ⊢
  rcases encOpt with _ | ⟨openCfg, dat⟩
  · simp [hasMainOpStmt]
  · rcases openCfg with _ | kc
    · simp [hasMainOpStmt]
    · rcases hmk : manageKey cfg skip freshId now db n st kc none with
        ⟨r, st2, n2, tr2⟩
      simp only [hmk] at hok ⊢
      cases r with
      | error e => exact absurd rfl (hok e)
      | ok id =>
        rcases hmk2 : manageKey cfg skip freshId now db n2 st2
            ⟨some false, some false⟩ (some id) with ⟨r2, st3, n3, tr3⟩
        simp [hmk2, hasMainOpStmt]

/-- Witness for C9 at a concrete input. -/
theorem c9_bulk_without_columns_witness :
    (executeSql ⟨some "SK", some "CERT"⟩ false "ctx" 0 dbAllOk (fun _ => [1])
        (.error "boom") 0 ⟨[], false, true, true⟩
        ⟨[JsVal.nullV], some ⟨none, some 100⟩, none, false⟩).1 = .ok [] ∧
    hasMainOpStmt
      (executeSql ⟨some "SK", some "CERT"⟩ false "ctx" 0 dbAllOk
        (fun _ => [1]) (.error "boom") 0 ⟨[], false, true, true⟩
        ⟨[JsVal.nullV], some ⟨none, some 100⟩, none, false⟩).2.2.2 = false :=
  c9_bulk_without_columns ⟨some "SK", some "CERT"⟩ false "ctx" 0 dbAllOk
    (fun _ => [1]) (.error "boom") 0 ⟨[], false, true, true⟩
    [JsVal.nullV] (some 100) none false (fun _ h => Except.noConfusion h)

/-- C8: on the plain path, parameter `i` is bound under the positional
name `p<i>` with exactly the spec's type mapping (`null`/`undefined` → null,
`Date` → date/time, `Buffer` → variable binary, else default inference), and
an `executeSql` call with a parameter list and no bulk emits precisely those
bindings on its query. -/
theorem c8_param_binding
    (cfg : DbConfig) (skip : Bool) (freshId : String) (now : Nat)
    (db : Nat → DriverResp) (qdata : Nat → List Nat)
    (bulkOutcome : Except String Unit) (n : Nat) (st : KMState)
    (params : List JsVal) (tx : Bool) (i : Nat)
    (h : i < params.length) (h2 : i < (bindParams params).length) :
    (bindParams params).get ⟨i, h2⟩ =
      ("p" ++ toString i, specParamType (params.get ⟨i, h⟩)) ∧
    (executeSql cfg skip freshId now db qdata bulkOutcome n st
        ⟨params, none, none, tx⟩).2.2.2 =
      [ExecAction.plainQuery (bindParams params)] := by
  constructor
  · unfold bindParams at h2 ⊢
    rw [List.get_mapIdx params (fun i v => bindParam i v) i h]
    unfold bindParam specParamType
    generalize params.get ⟨i, h⟩ = v
    cases v <;> rfl
  · unfold executeSql
    rcases hq : db n with rows | ⟨num, msg⟩ <;> simp [hq]

/-- Witness for C8 on a concrete parameter list covering all four cases. -/
theorem c8_param_binding_witness :
    (bindParams [JsVal.dateV 7, JsVal.nullV]).get ⟨0, by decide⟩ =
      ("p0", specParamType (([JsVal.dateV 7, JsVal.nullV]).get ⟨0, by decide⟩)) ∧
    (executeSql ⟨some "SK", some "CERT"⟩ false "ctx" 0 dbAllOk (fun _ => [1])
        (.ok ()) 0 ⟨[], false, true, true⟩
        ⟨[JsVal.dateV 7, JsVal.nullV], none, none, false⟩).2.2.2 =
      [ExecAction.plainQuery (bindParams [JsVal.dateV 7, JsVal.nullV])] :=
  c8_param_binding ⟨some "SK", some "CERT"⟩ false "ctx" 0 dbAllOk
    (fun _ => [1]) (.ok ()) 0 ⟨[], false, true, true⟩
    [JsVal.dateV 7, JsVal.nullV] false 0 (by decide) (by decide)

theorem bpProcessCols_actions (beh : BulkBehavior) (encSet : List String) :
    ∀ l : List (Nat × ColumnSpec),
      ∀ a ∈ (bpProcessCols beh encSet l).2, ∃ i, a = BPAction.encryptCol i := by
  intro l
  induction l with
  | nil => simp [bpProcessCols]
  | cons p rest ih =>
    obtain ⟨i, c⟩ := p
    unfold bpProcessCols
    by_cases hmem : c.name ∈ encSet
    · by_cases hf : beh.encryptFailCol = some i
      · simp only [hmem, hf, if_true, if_pos]
        intro a ha
        simp at ha
        exact ⟨i, ha⟩
      · rcases hrec : bpProcessCols beh encSet rest with ⟨r, as⟩
        simp only [hmem, hf, if_true, if_false, if_pos, if_neg, hrec,
          not_false_iff]
        intro a ha
        rcases List.mem_cons.mp ha with h1 | h2
        · exact ⟨i, h1⟩
        · exact ih a (by rw [hrec]; exact h2)
    · simp only [hmem, if_neg, not_false_iff]
      exact ih

theorem bpBatches_actions (beh : BulkBehavior) :
    ∀ l : List Nat,
      ∀ a ∈ (bpBatches beh l).2, ∃ k, a = BPAction.bulkCopy k := by
  intro l
  induction l with
  | nil => simp [bpBatches]
  | cons k rest ih =>
    unfold bpBatches
    by_cases hf : beh.bulkFailBatch = some k
    · simp only [hf, if_pos]
      intro a ha
      simp at ha
      exact ⟨k, ha⟩
    · rcases hrec : bpBatches beh rest with ⟨r, as⟩
      simp only [hf, if_neg, hrec, not_false_iff]
      intro a ha
      rcases List.mem_cons.mp ha with h1 | h2
      · exact ⟨k, h1⟩
      · exact ih a (by rw [hrec]; exact h2)

/-- With a caller-supplied transaction (`needsTx = false`) the body emits
only the key-open, encryption and bulk-copy actions: never begin, commit,
rollback or key cleanup. -/
theorem bpBody_callerTx (beh : BulkBehavior) (dataLen : Nat)
    (columns : List ColumnSpec) (encOpen : Bool) (encData : List String)
    (batchSize : Nat) :
    ∀ a ∈ (bpBody beh dataLen columns encOpen encData batchSize false).2.2,
      a = BPAction.manageKeyOpen ∨ (∃ i, a = BPAction.encryptCol i) ∨
        (∃ k, a = BPAction.bulkCopy k) := by
  unfold bpBody
  simp only [Bool.false_and, Bool.false_eq_true, if_false, ite_false]
  by_cases hko : (encOpen && !beh.manageKeyOk) = true
  · simp only [hko, if_pos]
    intro a ha
    simp at ha
    exact Or.inl ha
  · rw [if_neg hko]
    by_cases hval : (columns.filter
        (fun c => !(c.name.data.all Char.isWhitespace) && c.hasType)).isEmpty = true
    · simp only [hval, if_pos]
      intro a ha
      rcases List.mem_append.mp ha with h1 | h2
      · simp at h1
      · rcases encOpen <;> simp_all
    · rw [if_neg hval]
      rcases hpc : bpProcessCols beh encData (columns.filter
          (fun c => !(c.name.data.all Char.isWhitespace) && c.hasType)).enum with ⟨rC, trC⟩
      have hpcm := bpProcessCols_actions beh encData (columns.filter
          (fun c => !(c.name.data.all Char.isWhitespace) && c.hasType)).enum
      rw [hpc] at hpcm
      try rw [hpc]
      cases rC with
      | error e =>
        intro a ha
        rcases List.mem_append.mp ha with h1 | h2
        · rcases List.mem_append.mp h1 with h3 | h4
          · simp at h3
          · rcases encOpen <;> simp_all
        · exact Or.inr (Or.inl (hpcm a h2))
      | ok u =>
        cases u
        rcases hbt : bpBatches beh
            (List.range ((dataLen + batchSize - 1) / batchSize)) with ⟨rB, trB⟩
        have hbtm := bpBatches_actions beh
          (List.range ((dataLen + batchSize - 1) / batchSize))
        rw [hbt] at hbtm
        try rw [hbt]
        cases rB with
        | error e =>
          intro a ha
          rcases List.mem_append.mp ha with h1 | h2
          · rcases List.mem_append.mp h1 with h3 | h4
            · rcases List.mem_append.mp h3 with h5 | h6
              · simp at h5
              · rcases encOpen <;> simp_all
            · exact Or.inr (Or.inl (hpcm a h4))
          · exact Or.inr (Or.inr (hbtm a h2))
        | ok u =>
          cases u
          intro a ha
          rcases List.mem_append.mp ha with h1 | h2
          · rcases List.mem_append.mp h1 with h3 | h4
            · rcases List.mem_append.mp h3 with h5 | h6
              · simp at h5
              · rcases encOpen <;> simp_all
            · exact Or.inr (Or.inl (hpcm a h4))
          · exact Or.inr (Or.inr (hbtm a h2))

/-- C6: for a non-empty bulk load whose body fails (during key opening,
row processing, encryption, the bulk copy, or the commit): (a) when no
transaction was supplied, `bulkProcess` rolls back the transaction it
created, releases the key context via `cleanupTransaction` when one was
captured, and rethrows the original error; (b) when the caller supplied the
transaction, it performs no begin, no commit, no rollback and no key
cleanup, and rethrows the original error. -/
theorem c6_bulk_failure_handling
    (beh : BulkBehavior) (data : List RowMap) (columns : List ColumnSpec)
    (enc : Option EncOptions) (batchSize : Nat) (existingTx : Bool)
    (e : String) (kOp : Bool) (bodyActs : List BPAction)
    (hdata : data ≠ [])
    (hbody : bpBody beh data.length columns
        (match enc with | some x => x.openCfg.isSome | none => false)
        (match enc with | some x => x.data | none => []) batchSize
        (!existingTx) = (.error e, kOp, bodyActs)) :
    (existingTx = false → beh.rollbackOk = true →
      bulkProcess beh data columns enc batchSize existingTx =
        (.error e, bodyActs ++ [BPAction.rollbackTx] ++
          (if kOp then [BPAction.cleanupTx] else []))) ∧
    (existingTx = true →
      bulkProcess beh data columns enc batchSize existingTx =
          (.error e, bodyActs) ∧
        BPAction.beginTx ∉ bodyActs ∧ BPAction.commitTx ∉ bodyActs ∧
        BPAction.rollbackTx ∉ bodyActs ∧ BPAction.cleanupTx ∉ bodyActs) := by
  have hne : data.isEmpty = false := by
    cases data with
    | nil => exact absurd rfl hdata
    | cons r rs => rfl
  constructor
  · intro htx hrb
    subst htx
    rw [show (!false) = true from rfl] at hbody
    unfold bulkProcess
    rw [hne]
    simp only [Bool.false_eq_true, if_false, Bool.not_false]
    rw [hbody]
    simp [hrb]
  · intro htx
    subst htx
    rw [show (!true) = false from rfl] at hbody
    constructor
    · unfold bulkProcess
      rw [hne]
      simp only [Bool.false_eq_true, if_false, Bool.not_true]
      rw [hbody]
    · revert hbody
      generalize (match enc with
        | some x => x.openCfg.isSome
        | none => false) = encOpen
      generalize (match enc with
        | some x => x.data
        | none => ([] : List String)) = encData
      intro hbody
      have hshape := bpBody_callerTx beh data.length columns encOpen encData
        batchSize
      rw [hbody] at hshape
      simp only at hshape
      refine ⟨?_, ?_, ?_, ?_⟩ <;>
        · intro hmem
          rcases hshape _ hmem with h | ⟨i, h⟩ | ⟨k, h⟩ <;> cases h

/-- Witness for C6: a 2-row owned-transaction bulk load whose bulk-copy
call fails is rolled back, key-cleaned and rethrown. -/
theorem c6_bulk_failure_handling_witness :
    bulkProcess ⟨true, true, none, some 0, true, true⟩
        [[("a", JsVal.otherV "1")], [("a", JsVal.otherV "2")]]
        [⟨"a", true, false⟩] (some ⟨some ⟨some true, some true⟩, ["a"]⟩)
        500 false =
      (.error "Parti için toplu ekleme başarısız",
        [BPAction.beginTx, BPAction.manageKeyOpen, BPAction.encryptCol 0,
          BPAction.bulkCopy 0, BPAction.rollbackTx, BPAction.cleanupTx]) :=
  (c6_bulk_failure_handling ⟨true, true, none, some 0, true, true⟩
      [[("a", JsVal.otherV "1")], [("a", JsVal.otherV "2")]]
      [⟨"a", true, false⟩] (some ⟨some ⟨some true, some true⟩, ["a"]⟩)
      500 false "Parti için toplu ekleme başarısız" true
      [BPAction.beginTx, BPAction.manageKeyOpen, BPAction.encryptCol 0,
        BPAction.bulkCopy 0] (by decide) rfl).1 rfl rfl

/-- C7: basic open/close round trip: on a live service with availability
already confirmed and a configured symmetric key, `manageKey(pool,
{aes: true, masterkey: true})` on a fresh context followed by
`manageKey(pool, {aes: false, masterkey: false}, _, sameId)` (all driver
calls succeeding) leaves no entry for the context id in the state map, and
across the two calls at most one OPEN MASTER KEY and at most one
OPEN SYMMETRIC KEY statement were issued. -/
theorem c7_round_trip (cfg : DbConfig) (sk : String)
    (freshId freshId2 : String) (now now2 : Nat) (st : KMState)
    (r1 : Except String String) (st1 : KMState) (n1 : Nat) (tr1 : List Stmt)
    (r2 : Except String String) (st2 : KMState) (n2 : Nat) (tr2 : List Stmt)
    (hsym : cfg.symmetricKeyName = some sk) (hskb : (sk == "") = false)
    (hclosed : st.closed = false) (hchk : st.keysChecked = true)
    (hfresh : mapGet st.connectionKeyStates freshId = none)
    (h1 : manageKey cfg false freshId now dbAllOk 0 st
      ⟨some true, some true⟩ none = (r1, st1, n1, tr1))
    (h2 : manageKey cfg false freshId2 now2 dbAllOk n1 st1
      ⟨some false, some false⟩ (some freshId) = (r2, st2, n2, tr2)) :
    mapGet st2.connectionKeyStates freshId = none ∧
    (tr1 ++ tr2).count Stmt.openMasterKeyBatch ≤ 1 ∧
    (tr1 ++ tr2).count Stmt.openSymKeyBatch ≤ 1 := by
  have has : aesSection (some true) sk dbAllOk 2 (⟨[], true, now⟩ : ConnState) =
      (.ok (), ⟨[sk], true, now⟩, 4,
        [.querySymKeyExists, .openSymKeyBatch]) := by
    unfold aesSection
    simp [dbAllOk, setAdd]
  have e1 : manageKey cfg false freshId now dbAllOk 0 st
      ⟨some true, some true⟩ none =
      (.ok freshId,
        { st with connectionKeyStates :=
            mapSet st.connectionKeyStates freshId ⟨[sk], true, now⟩ }, 4,
        [.queryMasterKeyExists, .openMasterKeyBatch, .querySymKeyExists,
          .openSymKeyBatch]) := by
    unfold manageKey openPath
    simp [hclosed, hchk, hfresh, hsym, hskb, has, KeyConfig.wantsKeys,
      masterKeySection, dbAllOk, mapSet_mapSet]
  rw [e1] at h1
  simp only [Prod.mk.injEq] at h1
  obtain ⟨hr1, hst1, hn1, htr1⟩ := h1
  subst hst1
  subst hn1
  subst htr1
  have hcl : closeSection cfg dbAllOk 4 (⟨[sk], true, now2⟩ : ConnState) =
      (⟨[], false, now2⟩, 6, [.closeSymKeyBatch, .closeMasterKeyBatch]) := by
    unfold closeSection
    simp [hsym, hskb, dbAllOk]
  have e2 : manageKey cfg false freshId2 now2 dbAllOk 4
      { st with connectionKeyStates :=
          mapSet st.connectionKeyStates freshId ⟨[sk], true, now⟩ }
      ⟨some false, some false⟩ (some freshId) =
      (.ok freshId,
        { st with connectionKeyStates :=
            mapDelete (mapSet st.connectionKeyStates freshId
              ⟨[sk], true, now2⟩) freshId }, 6,
        [.closeSymKeyBatch, .closeMasterKeyBatch]) := by
    unfold manageKey
    simp [hclosed, KeyConfig.wantsKeys, mapGet_mapSet_self, hcl,
      mapSet_mapSet]
  rw [e2] at h2
  simp only [Prod.mk.injEq] at h2
  obtain ⟨hr2, hst2, hn2, htr2⟩ := h2
  subst hst2
  subst htr2
  refine ⟨mapGet_mapDelete_self _ _, by decide, by decide⟩

/-- Witness for C7 at a concrete round trip. -/
theorem c7_round_trip_witness :
    mapGet [] "ctx" = none ∧
    ([Stmt.queryMasterKeyExists, Stmt.openMasterKeyBatch,
        Stmt.querySymKeyExists, Stmt.openSymKeyBatch, Stmt.closeSymKeyBatch,
        Stmt.closeMasterKeyBatch].count Stmt.openMasterKeyBatch ≤ 1) ∧
    ([Stmt.queryMasterKeyExists, Stmt.openMasterKeyBatch,
        Stmt.querySymKeyExists, Stmt.openSymKeyBatch, Stmt.closeSymKeyBatch,
        Stmt.closeMasterKeyBatch].count Stmt.openSymKeyBatch ≤ 1) :=
  c7_round_trip ⟨some "SK", some "CERT"⟩ "SK" "ctx" "x" 0 1
    ⟨[], false, true, true⟩ (.ok "ctx")
    ⟨[("ctx", ⟨["SK"], true, 0⟩)], false, true, true⟩ 4
    [.queryMasterKeyExists, .openMasterKeyBatch, .querySymKeyExists,
      .openSymKeyBatch]
    (.ok "ctx") ⟨[], false, true, true⟩ 6
    [.closeSymKeyBatch, .closeMasterKeyBatch]
    rfl rfl rfl rfl rfl rfl rfl

theorem mutexRun_cons (s : MutexState) (e : MutexEvent)
    (es : List MutexEvent) :
    mutexRun s (e :: es) =
      ((mutexRun (mutexStep s e).1 es).1,
        (mutexStep s e).2 :: (mutexRun (mutexStep s e).1 es).2) := rfl

theorem mutexStep_preserve_notin (s : MutexState) (e : MutexEvent) (id : Nat)
    (h : id ∉ s.waitQueue) (hacq : ∀ t, e ≠ .acquire id t) :
    id ∉ (mutexStep s e).1.waitQueue ∧
    (mutexStep s e).2 ≠ .grantedFromQueue id ∧
    (mutexStep s e).2 ≠ .grantedNow id := by
  cases e with
  | acquire j t =>
    have hj : j ≠ id := fun hh => hacq t (by rw [hh])
    unfold mutexStep
    by_cases hl : s.locked = true
    · simp only [hl, Bool.not_true, Bool.false_eq_true, if_false]
      refine ⟨?_, by simp, by simp⟩
      intro hx
      rcases List.mem_append.mp hx with h1 | h2
      · exact h h1
      · simp at h2
        exact hj h2.symm
    · rw [Bool.not_eq_true] at hl
      simp only [hl, Bool.not_false, if_true]
      exact ⟨h, by simp, by simp [hj]⟩
  | release =>
    unfold mutexStep
    cases hq : s.waitQueue with
    | nil => simp [hq]
    | cons w rest =>
      have hw : w ≠ id := fun hh => h (hq ▸ (hh ▸ List.mem_cons_self w rest))
      have hr : id ∉ rest := fun hh => h (hq ▸ List.mem_cons_of_mem _ hh)
      simp [hq, hw, hr]
  | timeoutFire j t =>
    unfold mutexStep
    exact ⟨fun hx => h (List.mem_of_mem_erase hx), by simp, by simp⟩

/-- A waiter that is not in the queue and never calls acquire again stays
out of the queue and is never granted the lock by any later event. -/
theorem mutexRun_never_granted (id : Nat) :
    ∀ (es : List MutexEvent) (s : MutexState),
      id ∉ s.waitQueue → noAcquireOf id es = true →
      id ∉ (mutexRun s es).1.waitQueue ∧
      ∀ o ∈ (mutexRun s es).2,
        o ≠ MutexOutcome.grantedFromQueue id ∧
          o ≠ MutexOutcome.grantedNow id := by
  intro es
  induction es with
  | nil =>
    intro s h _
    exact ⟨h, by simp [mutexRun]⟩
  | cons e rest ih =>
    intro s h hn
    rw [noAcquireOf, List.all_cons, Bool.and_eq_true] at hn
    obtain ⟨hhd, htl⟩ := hn
    have hacq : ∀ t, e ≠ MutexEvent.acquire id t := by
      intro t he
      subst he
      simp at hhd
    have hstep := mutexStep_preserve_notin s e id h hacq
    have hih := ih (mutexStep s e).1 hstep.1 htl
    rw [mutexRun_cons]
    refine ⟨hih.1, ?_⟩
    intro o ho
    rcases List.mem_cons.mp ho with rfl | ho2
    · exact hstep.2
    · exact hih.2 o ho2

/-- FIFO: while `a` sits ahead of `b` in the wait queue and neither
re-acquires, `b` can only be granted after `a` has been granted or timed
out. -/
theorem mutexRun_fifo_aux (a b : Nat) :
    ∀ (es : List MutexEvent) (s : MutexState),
      AheadOf a b s.waitQueue →
      noAcquireOf a es = true → noAcquireOf b es = true →
      MutexOutcome.grantedFromQueue b ∈ (mutexRun s es).2 →
      MutexOutcome.grantedFromQueue a ∈ (mutexRun s es).2 ∨
        ∃ m, MutexOutcome.rejected a m ∈ (mutexRun s es).2 := by
  intro es
  induction es with
  | nil =>
    intro s _ _ _ hb
    simp [mutexRun] at hb
  | cons e rest ih =>
    intro s hinv hna hnb hb
    obtain ⟨lk, q⟩ := s
    obtain ⟨l1, l2, hq, hal1, hbl1, hcnt⟩ := hinv
    simp only at hq
    subst hq
    rw [noAcquireOf, List.all_cons, Bool.and_eq_true] at hna hnb
    obtain ⟨hahd, hatl⟩ := hna
    obtain ⟨hbhd, hbtl⟩ := hnb
    rw [mutexRun_cons] at hb ⊢
    cases e with
    | acquire j t =>
      have hja : j ≠ a := by simpa using hahd
      have hjb : j ≠ b := by simpa using hbhd
      cases lk with
      | false =>
        have hstep : mutexStep ⟨false, l1 ++ l2⟩ (.acquire j t) =
            (⟨true, l1 ++ l2⟩, .grantedNow j) := rfl
        rw [hstep] at hb ⊢
        rcases List.mem_cons.mp hb with hhd | htl2
        · exact absurd hhd (by simp)
        · rcases ih ⟨true, l1 ++ l2⟩ ⟨l1, l2, rfl, hal1, hbl1, hcnt⟩
              hatl hbtl htl2 with h1 | ⟨m, h2⟩
          · exact Or.inl (List.mem_cons_of_mem _ h1)
          · exact Or.inr ⟨m, List.mem_cons_of_mem _ h2⟩
      | true =>
        have hstep : mutexStep ⟨true, l1 ++ l2⟩ (.acquire j t) =
            (⟨true, (l1 ++ l2) ++ [j]⟩, .queued j (decide (0 < t))) := rfl
        rw [hstep] at hb ⊢
        rcases List.mem_cons.mp hb with hhd | htl2
        · exact absurd hhd (by simp)
        · have hinv' : AheadOf a b ((l1 ++ l2) ++ [j]) := by
            refine ⟨l1, l2 ++ [j], by simp, hal1, hbl1, ?_⟩
            rw [List.count_append, hcnt]
            have hbj : b ≠ j := fun hh => hjb hh.symm
            simp [List.count_cons, hbj]
          rcases ih ⟨true, (l1 ++ l2) ++ [j]⟩ hinv' hatl hbtl htl2 with
            h1 | ⟨m, h2⟩
          · exact Or.inl (List.mem_cons_of_mem _ h1)
          · exact Or.inr ⟨m, List.mem_cons_of_mem _ h2⟩
    | release =>
      cases l1 with
      | nil => simp at hal1
      | cons w l1' =>
        have hstep : mutexStep ⟨lk, (w :: l1') ++ l2⟩ .release =
            (⟨lk, l1' ++ l2⟩, .grantedFromQueue w) := rfl
        rw [hstep] at hb ⊢
        by_cases hwa : w = a
        · subst hwa
          exact Or.inl (List.mem_cons_self _ _)
        · have hwb : w ≠ b := fun hh =>
            hbl1 (by rw [← hh]; exact List.mem_cons_self w l1')
          rcases List.mem_cons.mp hb with hhd | htl2
          · injection hhd with h
            exact absurd h.symm hwb
          · have hal1' : a ∈ l1' := by
              rcases List.mem_cons.mp hal1 with h1 | h2
              · exact absurd h1.symm hwa
              · exact h2
            have hbl1' : b ∉ l1' := fun hh =>
              hbl1 (List.mem_cons_of_mem _ hh)
            rcases ih ⟨lk, l1' ++ l2⟩ ⟨l1', l2, rfl, hal1', hbl1', hcnt⟩
                hatl hbtl htl2 with h1 | ⟨m, h2⟩
            · exact Or.inl (List.mem_cons_of_mem _ h1)
            · exact Or.inr ⟨m, List.mem_cons_of_mem _ h2⟩
    | timeoutFire j t =>
      have hstep : mutexStep ⟨lk, l1 ++ l2⟩ (.timeoutFire j t) =
          (⟨lk, (l1 ++ l2).erase j⟩,
            .rejected j (mutexTimeoutMessage t)) := rfl
      rw [hstep] at hb ⊢
      by_cases hja : j = a
      · subst hja
        exact Or.inr ⟨mutexTimeoutMessage t, List.mem_cons_self _ _⟩
      · rcases List.mem_cons.mp hb with hhd | htl2
        · exact absurd hhd (by simp)
        · by_cases hjb : j = b
          · have hout : b ∉ (l1 ++ l2).erase j := by
              rw [hjb, List.erase_append_right l2 hbl1]
              intro hx
              rcases List.mem_append.mp hx with h1 | h2
              · exact hbl1 h1
              · have hc := List.count_erase_self b l2
                rw [hcnt] at hc
                exact absurd (List.count_pos_iff.mpr h2)
                  (by rw [hc]; simp)
            have hnever := mutexRun_never_granted b rest
              ⟨lk, (l1 ++ l2).erase j⟩ hout hbtl
            exact absurd rfl ((hnever.2 _ htl2).1)
          · have hinv' : AheadOf a b ((l1 ++ l2).erase j) := by
              by_cases hjl1 : j ∈ l1
              · rw [List.erase_append_left l2 hjl1]
                exact ⟨l1.erase j, l2, rfl,
                  (List.mem_erase_of_ne (fun hh => hja hh.symm)).mpr hal1,
                  fun hh => hbl1 (List.mem_of_mem_erase hh), hcnt⟩
              · rw [List.erase_append_right l2 hjl1]
                refine ⟨l1, l2.erase j, rfl, hal1, hbl1, ?_⟩
                rw [List.count_erase_of_ne (fun hh => hjb hh.symm) l2]
                exact hcnt
            rcases ih ⟨lk, (l1 ++ l2).erase j⟩ hinv' hatl hbtl htl2 with
              h1 | ⟨m, h2⟩
            · exact Or.inl (List.mem_cons_of_mem _ h1)
            · exact Or.inr ⟨m, List.mem_cons_of_mem _ h2⟩

/-- C5: the global `AsyncMutex` is FIFO and its timeout removes the
waiter for good: (1) an `acquire` with a positive timeout on a held mutex
enqueues the waiter at the tail with a timer armed; (2) when the timer
fires, the waiter is rejected with the timeout-specific error and is no
longer present in the wait queue; (3) a waiter not in the queue that never
re-acquires is never granted the lock by any later event (it neither waits
forever nor receives a late grant); (4) waiters are granted in arrival
order: while `a` sits ahead of `b`, `b` can only be granted after `a` was
granted or timed out. -/
theorem c5_mutex_fifo_and_timeout :
    (∀ (s : MutexState) (id t : Nat), s.locked = true → 0 < t →
      mutexStep s (.acquire id t) =
        ({ s with waitQueue := s.waitQueue ++ [id] },
          .queued id true)) ∧
    (∀ (s : MutexState) (id t : Nat), s.waitQueue.count id ≤ 1 →
      (mutexStep s (.timeoutFire id t)).2 =
        .rejected id (mutexTimeoutMessage t) ∧
      id ∉ (mutexStep s (.timeoutFire id t)).1.waitQueue) ∧
    (∀ (s : MutexState) (id : Nat) (es : List MutexEvent),
      id ∉ s.waitQueue → noAcquireOf id es = true →
      ∀ o ∈ (mutexRun s es).2,
        o ≠ MutexOutcome.grantedFromQueue id ∧
          o ≠ MutexOutcome.grantedNow id) ∧
    (∀ (a b : Nat) (s : MutexState) (es : List MutexEvent),
      AheadOf a b s.waitQueue →
      noAcquireOf a es = true → noAcquireOf b es = true →
      MutexOutcome.grantedFromQueue b ∈ (mutexRun s es).2 →
      MutexOutcome.grantedFromQueue a ∈ (mutexRun s es).2 ∨
        ∃ m, MutexOutcome.rejected a m ∈ (mutexRun s es).2) := by
  refine ⟨?_, ?_, ?_, ?_⟩
  · intro s id t hl ht
    unfold mutexStep
    simp [hl, ht]
  · intro s id t hcnt
    refine ⟨rfl, ?_⟩
    show id ∉ s.waitQueue.erase id
    intro hx
    have hc := List.count_erase_self id s.waitQueue
    have hpos := List.count_pos_iff.mpr hx
    rw [hc] at hpos
    omega
  · intro s id es h hn
    exact (mutexRun_never_granted id es s h hn).2
  · intro a b s es hinv hna hnb hb
    exact mutexRun_fifo_aux a b es s hinv hna hnb hb

/-- Witness for C5 at the spec's concrete scenario: a stuck holder, a
queued waiter 5 ahead of waiter 7; waiter 5's timer fires (it is rejected
with the timeout message and leaves the queue), then a release grants 7. -/
theorem c5_mutex_fifo_and_timeout_witness :
    (mutexStep ⟨true, []⟩ (.acquire 5 10) =
      (⟨true, [5]⟩, .queued 5 true)) ∧
    ((mutexStep ⟨true, [5, 7]⟩ (.timeoutFire 5 10)).2 =
        .rejected 5 (mutexTimeoutMessage 10) ∧
      5 ∉ (mutexStep ⟨true, [5, 7]⟩ (.timeoutFire 5 10)).1.waitQueue) ∧
    (MutexOutcome.grantedFromQueue 9 ≠ MutexOutcome.grantedFromQueue 7 ∧
      MutexOutcome.grantedFromQueue 9 ≠ MutexOutcome.grantedNow 7) ∧
    (MutexOutcome.grantedFromQueue 5 ∈
        (mutexRun ⟨true, [5, 7]⟩ [.timeoutFire 5 10, .release]).2 ∨
      ∃ m, MutexOutcome.rejected 5 m ∈
        (mutexRun ⟨true, [5, 7]⟩ [.timeoutFire 5 10, .release]).2) :=
  ⟨c5_mutex_fifo_and_timeout.1 ⟨true, []⟩ 5 10 rfl (by decide),
    c5_mutex_fifo_and_timeout.2.1 ⟨true, [5, 7]⟩ 5 10 (by decide),
    c5_mutex_fifo_and_timeout.2.2.1 ⟨true, [9]⟩ 7 [.release] (by decide)
      (by decide) (MutexOutcome.grantedFromQueue 9) (by decide),
    c5_mutex_fifo_and_timeout.2.2.2 5 7 ⟨true, [5, 7]⟩
      [.timeoutFire 5 10, .release]
      ⟨[5], [7], rfl, by decide, by decide, by decide⟩
      (by decide) (by decide) (by decide)⟩

end EasyDb
